import Mathlib

/-!
# Excal-MQ: verification of the MTP protocol layer

A shallow embedding of the `net` crate of the Excal-MQ repository
(`src/net/src/protocol/{error,interface,mod}.rs`,
`src/net/src/socket/{data,client/mod,server/mod,server/data}.rs`)
together with proofs of the behavioural properties stated for it.
Machine integers (`u8`, `u16`, `u32`) are modelled as `Nat` with explicit
`% 2^w` where truncation matters; fallible operations return `Option` or
`Except`; the asynchronous socket calls are modelled by passing their
observable outcome (bytes available on the stream, timeout expiry)
explicitly as an argument.

Components of the repository that the specification describes but whose
implementation is absent from the crate sources (the `ProtocolParser`
frame codec and the queue engine) are modelled from the specification's
words; each such definition carries a doc comment starting
`Modelled from the spec:`.
-/

namespace ExcalMQ

/-! ## Protocol error taxonomy (`src/net/src/protocol/error.rs`) -/

/-- Diagnostic payload carried by every protocol error kind
(`struct Error { info: String }` in `protocol/error.rs`). -/
structure Error where
  info : String
deriving DecidableEq

/-- The closed taxonomy of MTP protocol errors: client errors 100–115 and
server errors 120–128 (122 absent), each wrapping a diagnostic `Error`
(`enum ProtocolError` in `protocol/error.rs`). -/
inductive ProtocolError
  | BadRequest100 (e : Error)
  | Unauthorized101 (e : Error)
  | Forbidden102 (e : Error)
  | NotFound103 (e : Error)
  | MethodNotAllowed104 (e : Error)
  | NotAcceptable105 (e : Error)
  | ProxyAuthenticationRequired106 (e : Error)
  | RequestTimeout107 (e : Error)
  | Conflict108 (e : Error)
  | Gone109 (e : Error)
  | PreconditionFailed110 (e : Error)
  | PayloadTooLarge111 (e : Error)
  | UnprocessableContent112 (e : Error)
  | Locked113 (e : Error)
  | TooManyRequests114 (e : Error)
  | RequestHeaderTooLarge115 (e : Error)
  | InternalServerError120 (e : Error)
  | BadGateway121 (e : Error)
  | ServiceUnavailable123 (e : Error)
  | GatewayTimeout124 (e : Error)
  | MTPVersionNotSupported125 (e : Error)
  | InsufficientStorage126 (e : Error)
  | LoopDetected127 (e : Error)
  | NetworkAuthenticationRequired128 (e : Error)
deriving DecidableEq

/-- `ProtocolError::code` (`protocol/error.rs`, lines 178–205): the numeric
code associated with the error, a `u32` modelled as `Nat`. -/
def ProtocolError.code : ProtocolError → Nat
  | .BadRequest100 _ => 100
  | .Unauthorized101 _ => 101
  | .Forbidden102 _ => 102
  | .NotFound103 _ => 103
  | .MethodNotAllowed104 _ => 104
  | .NotAcceptable105 _ => 105
  | .ProxyAuthenticationRequired106 _ => 106
  | .RequestTimeout107 _ => 107
  | .Conflict108 _ => 108
  | .Gone109 _ => 109
  | .PreconditionFailed110 _ => 110
  | .PayloadTooLarge111 _ => 111
  | .UnprocessableContent112 _ => 112
  | .Locked113 _ => 113
  | .TooManyRequests114 _ => 114
  | .RequestHeaderTooLarge115 _ => 115
  | .InternalServerError120 _ => 120
  | .BadGateway121 _ => 121
  | .ServiceUnavailable123 _ => 123
  | .GatewayTimeout124 _ => 124
  | .MTPVersionNotSupported125 _ => 125
  | .InsufficientStorage126 _ => 126
  | .LoopDetected127 _ => 127
  | .NetworkAuthenticationRequired128 _ => 128

/-- `ProtocolError::description` (`protocol/error.rs`, lines 215–242): the
fixed description string of the error kind. -/
def ProtocolError.description : ProtocolError → String
  | .BadRequest100 _ => "100 - Bad Request: The request could not be understood or was missing required parameters."
  | .Unauthorized101 _ => "101 - Unauthorized: Authentication is required and has failed or has not been provided."
  | .Forbidden102 _ => "102 - Forbidden: The request is understood, but it has been refused or access is not allowed."
  | .NotFound103 _ => "103 - Not Found: The requested resource could not be found."
  | .MethodNotAllowed104 _ => "104 - Method Not Allowed: The method specified in the request is not allowed for the resource."
  | .NotAcceptable105 _ => "105 - Not Acceptable: The resource is capable of generating only content not acceptable according to the Accept headers sent in the request."
  | .ProxyAuthenticationRequired106 _ => "106 - Proxy Authentication Required: Authentication with a proxy is required."
  | .RequestTimeout107 _ => "107 - Request Timeout: The server timed out waiting for the request."
  | .Conflict108 _ => "108 - Conflict: The request could not be processed because of conflict in the current state of the resource."
  | .Gone109 _ => "109 - Gone: The requested resource is no longer available and will not be available again."
  | .PreconditionFailed110 _ => "110 - Precondition Failed: The server does not meet one of the preconditions that the requester put on the request."
  | .PayloadTooLarge111 _ => "111 - Payload Too Large: The request is larger than the server is willing or able to process."
  | .UnprocessableContent112 _ => "112 - Unprocessable Content: The server understands the content type of the request entity, but was unable to process the contained instructions."
  | .Locked113 _ => "113 - Locked: The resource is currently locked and cannot be accessed."
  | .TooManyRequests114 _ => "114 - Too Many Requests: The user has sent too many requests in a given amount of time."
  | .RequestHeaderTooLarge115 _ => "115 - Request Header Too Large: The request headers are too large for the server to process."
  | .InternalServerError120 _ => "120 - Internal Server Error: An unexpected condition was encountered on the server."
  | .BadGateway121 _ => "121 - Bad Gateway: The server received an invalid response from the upstream server."
  | .ServiceUnavailable123 _ => "123 - Service Unavailable: The server is currently unable to handle the request due to a temporary overload or maintenance."
  | .GatewayTimeout124 _ => "124 - Gateway Timeout: The server did not receive a timely response from the upstream server or some other auxiliary server."
  | .MTPVersionNotSupported125 _ => "125 - MTP Version Not Supported: The MTP version used in the request is not supported by the server."
  | .InsufficientStorage126 _ => "126 - Insufficient Storage: The server is unable to store the representation needed to complete the request."
  | .LoopDetected127 _ => "127 - Loop Detected: The server detected an infinite loop while processing the request."
  | .NetworkAuthenticationRequired128 _ => "128 - Network Authentication Required: The request requires network authentication."

/-- Constructor discriminant of a `ProtocolError`: identifies the kind of the
error independently of the wrapped diagnostic. Used to state that two values
are of the same kind. -/
def ProtocolError.kind : ProtocolError → Nat
  | .BadRequest100 _ => 0
  | .Unauthorized101 _ => 1
  | .Forbidden102 _ => 2
  | .NotFound103 _ => 3
  | .MethodNotAllowed104 _ => 4
  | .NotAcceptable105 _ => 5
  | .ProxyAuthenticationRequired106 _ => 6
  | .RequestTimeout107 _ => 7
  | .Conflict108 _ => 8
  | .Gone109 _ => 9
  | .PreconditionFailed110 _ => 10
  | .PayloadTooLarge111 _ => 11
  | .UnprocessableContent112 _ => 12
  | .Locked113 _ => 13
  | .TooManyRequests114 _ => 14
  | .RequestHeaderTooLarge115 _ => 15
  | .InternalServerError120 _ => 16
  | .BadGateway121 _ => 17
  | .ServiceUnavailable123 _ => 18
  | .GatewayTimeout124 _ => 19
  | .MTPVersionNotSupported125 _ => 20
  | .InsufficientStorage126 _ => 21
  | .LoopDetected127 _ => 22
  | .NetworkAuthenticationRequired128 _ => 23

/-- Left inverse of `ProtocolError.code` on the codes actually assigned:
recovers the constructor discriminant from the numeric code. -/
def codeToKind : Nat → Nat
  | 100 => 0
  | 101 => 1
  | 102 => 2
  | 103 => 3
  | 104 => 4
  | 105 => 5
  | 106 => 6
  | 107 => 7
  | 108 => 8
  | 109 => 9
  | 110 => 10
  | 111 => 11
  | 112 => 12
  | 113 => 13
  | 114 => 14
  | 115 => 15
  | 120 => 16
  | 121 => 17
  | 123 => 18
  | 124 => 19
  | 125 => 20
  | 126 => 21
  | 127 => 22
  | 128 => 23
  | _ => 0

/-- On every `ProtocolError`, `codeToKind` recovers the kind from the code. -/
theorem codeToKind_code (e : ProtocolError) : codeToKind e.code = e.kind := by
  cases e <;> rfl

/-- C1: `ProtocolError::code` is total and injective over the 24 kinds.
Each kind is assigned exactly its designated number, every value returned
lies in 100–115 or 120–128, the value 122 is never returned, and no two
kinds share a code. -/
theorem C1_code_total_injective :
    (∀ i : Error,
      (ProtocolError.BadRequest100 i).code = 100 ∧
      (ProtocolError.Unauthorized101 i).code = 101 ∧
      (ProtocolError.Forbidden102 i).code = 102 ∧
      (ProtocolError.NotFound103 i).code = 103 ∧
      (ProtocolError.MethodNotAllowed104 i).code = 104 ∧
      (ProtocolError.NotAcceptable105 i).code = 105 ∧
      (ProtocolError.ProxyAuthenticationRequired106 i).code = 106 ∧
      (ProtocolError.RequestTimeout107 i).code = 107 ∧
      (ProtocolError.Conflict108 i).code = 108 ∧
      (ProtocolError.Gone109 i).code = 109 ∧
      (ProtocolError.PreconditionFailed110 i).code = 110 ∧
      (ProtocolError.PayloadTooLarge111 i).code = 111 ∧
      (ProtocolError.UnprocessableContent112 i).code = 112 ∧
      (ProtocolError.Locked113 i).code = 113 ∧
      (ProtocolError.TooManyRequests114 i).code = 114 ∧
      (ProtocolError.RequestHeaderTooLarge115 i).code = 115 ∧
      (ProtocolError.InternalServerError120 i).code = 120 ∧
      (ProtocolError.BadGateway121 i).code = 121 ∧
      (ProtocolError.ServiceUnavailable123 i).code = 123 ∧
      (ProtocolError.GatewayTimeout124 i).code = 124 ∧
      (ProtocolError.MTPVersionNotSupported125 i).code = 125 ∧
      (ProtocolError.InsufficientStorage126 i).code = 126 ∧
      (ProtocolError.LoopDetected127 i).code = 127 ∧
      (ProtocolError.NetworkAuthenticationRequired128 i).code = 128) ∧
    (∀ e : ProtocolError,
      (100 ≤ e.code ∧ e.code ≤ 115) ∨ (120 ≤ e.code ∧ e.code ≤ 128)) ∧
    (∀ e : ProtocolError, e.code ≠ 122) ∧
    (∀ e₁ e₂ : ProtocolError, e₁.code = e₂.code → e₁.kind = e₂.kind) := by
  refine ⟨fun i => ?_, fun e => ?_, fun e => ?_, fun e₁ e₂ h => ?_⟩
  · exact ⟨rfl, rfl, rfl, rfl, rfl, rfl, rfl, rfl, rfl, rfl, rfl, rfl, rfl,
      rfl, rfl, rfl, rfl, rfl, rfl, rfl, rfl, rfl, rfl, rfl⟩
  · cases e <;> simp [ProtocolError.code]
  · cases e <;> simp [ProtocolError.code]
  · rw [← codeToKind_code, ← codeToKind_code, h]

/-- Witness for C1 at concrete inputs: the designated mapping at a concrete
diagnostic, and injectivity applied to two values of the same kind. -/
theorem C1_witness :
    (ProtocolError.BadRequest100 ⟨"bad"⟩).code = 100 ∧
    (ProtocolError.BadRequest100 ⟨"x"⟩).kind =
      (ProtocolError.BadRequest100 ⟨"y"⟩).kind :=
  ⟨(C1_code_total_injective.1 ⟨"bad"⟩).1,
    C1_code_total_injective.2.2.2 (.BadRequest100 ⟨"x"⟩) (.BadRequest100 ⟨"y"⟩) rfl⟩

set_option maxRecDepth 8192 in
/-- C5: `ProtocolError::description` is a pure, total mapping from error
kind to a fixed string: it depends only on the kind of the value, not on
the wrapped diagnostic, and the returned string begins with the decimal
representation of the value's code followed by `" - "` (stated as: that
prefix's character list is a prefix of the description's character list). -/
theorem C5_description_pure_prefixed :
    (∀ e₁ e₂ : ProtocolError, e₁.kind = e₂.kind → e₁.description = e₂.description) ∧
    (∀ e : ProtocolError,
      (toString e.code ++ " - ").data.isPrefixOf e.description.data = true) := by
  constructor
  · intro e₁ e₂ h
    cases e₁ <;> cases e₂ <;> first
      | rfl
      | (exact absurd h (by simp [ProtocolError.kind]))
  · intro e
    cases e <;> simp only [ProtocolError.description, ProtocolError.code] <;> decide

/-- Witness for C5 at concrete inputs: kind-purity applied to two
`Gone109` values with different diagnostics, and the prefix law at a
concrete value. -/
theorem C5_witness :
    (ProtocolError.Gone109 ⟨"p"⟩).description =
      (ProtocolError.Gone109 ⟨"q"⟩).description ∧
    (toString (ProtocolError.Gone109 ⟨"p"⟩).code ++ " - ").data.isPrefixOf
      (ProtocolError.Gone109 ⟨"p"⟩).description.data = true :=
  ⟨C5_description_pure_prefixed.1 (.Gone109 ⟨"p"⟩) (.Gone109 ⟨"q"⟩) rfl,
    C5_description_pure_prefixed.2 (.Gone109 ⟨"p"⟩)⟩

/-! ## Protocol interface types (`src/net/src/protocol/interface.rs`) -/

/-- Models `std::fmt::Error`, the payload type of `MTPStatusCode::Error1`
in `interface.rs` (`use std::fmt::Error`): a unit struct carrying no
information. -/
structure FmtError where
deriving DecidableEq

/-- A `FmtError` carries no information: all its values are equal. -/
instance : Subsingleton FmtError :=
  ⟨fun a b => by cases a; cases b; rfl⟩

/-- Models `std::time::SystemTime` as an instant (nanoseconds since epoch). -/
abbrev SystemTime := Nat

/-- Models `std::net::SocketAddr` as four IPv4 octets and a port. -/
structure SocketAddr where
  oct0 : Nat
  oct1 : Nat
  oct2 : Nat
  oct3 : Nat
  port : Nat
deriving DecidableEq

/-- `MTPRequestType` (`interface.rs`): the request kinds of the protocol. -/
inductive MTPRequestType
  | Subscribe
  | Unsubscribe
  | Publish
  | Pull
  | Ping
  | Manage
deriving DecidableEq

/-- `MTPStatusCode` (`interface.rs`, lines 277–280): the status of a
protocol response; `Error1` wraps the `std::fmt::Error` unit type. -/
inductive MTPStatusCode
  | Success0
  | Error1 (e : FmtError)
deriving DecidableEq

/-- `AuthSchemes` (`interface.rs`): supported authorization schemes. -/
inductive AuthSchemes
  | Bearer
  | Basic
deriving DecidableEq

/-- `MTPAuth` (`interface.rs`): authentication methods of the header. -/
inductive MTPAuth
  | ExternalToken
  | LocalToken
  | Authorization (scheme : AuthSchemes)
  | Cookie
deriving DecidableEq

/-- `MTPManagerAction` (`interface.rs`): manager actions on a queue. -/
inductive MTPManagerAction
  | Rename
  | Authorize
  | Reject
  | Dispose
  | AccessorModify
deriving DecidableEq

/-- `MessagePriority` (`interface.rs`): priority levels of messages. -/
inductive MessagePriority
  | Low
  | Medium
  | High
  | Critical
deriving DecidableEq

/-- `MessageCategory` (`interface.rs`): categories a message belongs to. -/
inductive MessageCategory
  | EVENT
  | COMMAND
  | REQUEST
  | RESPONSE
  | ACKNOWLEDGEMENT
  | ERROR
  | NOTIFICATION
  | STATUS
deriving DecidableEq

/-- `ContentType` (`interface.rs`): content formats of a message body. -/
inductive ContentType
  | JSON
  | XML
deriving DecidableEq

/-- `MessagePublish` (`interface.rs`): addressing mode of a publish. -/
inductive MessagePublish
  | ALL
  | TO (client : String)
  | GROUP (clients : List String)
deriving DecidableEq

/-- `MTPHeaderUnit` (`interface.rs`): one unit of a message header. -/
inductive MTPHeaderUnit
  | Authentication (key : MTPAuth) (value : String)
  | Administration (action : MTPManagerAction)
  | Source (source : SocketAddr)
  | Message (id : String) (timestamp : SystemTime) (priority : MessagePriority)
      (category : MessageCategory) (content_type : ContentType)
  | MessagePublish (queue : String) («to» : MessagePublish)
deriving DecidableEq

/-- `StorageCell` (`protocol/mod.rs`): a key-value cell of local storage. -/
structure StorageCell where
  key : String
  value : String
deriving DecidableEq

/-- `MTPStorage` (`protocol/mod.rs`): a collection of storage cells. -/
structure MTPStorage where
  items : List StorageCell
deriving DecidableEq

/-- `MTPHeaders` (`protocol/mod.rs`): header units, local storage and a
timestamp. The source field `local` is kept under the guillemet name. -/
structure MTPHeaders where
  headers : List MTPHeaderUnit
  «local» : MTPStorage
  timestamp : SystemTime
deriving DecidableEq

/-- `MTPMessage` (`protocol/mod.rs`): the content of a protocol message. -/
structure MTPMessage where
  content_type : ContentType
  priority : MessagePriority
  category : MessageCategory
  publish : MessagePublish
  message : String
deriving DecidableEq

/-- `MTPResponse` (`protocol/mod.rs`, lines 55–64): status code, headers
and storage of a protocol response. -/
structure MTPResponse where
  status_code : MTPStatusCode
  headers : MTPHeaders
  storage : MTPStorage

/-- `MTPResponse::construct` (`protocol/mod.rs`, lines 84–91). -/
def MTPResponse.construct (status : MTPStatusCode) (headers : MTPHeaders)
    (storage : MTPStorage) : MTPResponse :=
  { status_code := status, headers := headers, storage := storage }

/-- Clone of the unit `std::fmt::Error` (trivially the value itself). -/
def FmtError.clone (e : FmtError) : FmtError := e

/-- `Clone for Error` (`protocol/error.rs`, lines 278–282). -/
def Error.clone (e : Error) : Error := { info := e.info }

/-- `Clone for MTPStatusCode` (`protocol/mod.rs`, lines 380–387). -/
def MTPStatusCode.clone : MTPStatusCode → MTPStatusCode
  | .Success0 => .Success0
  | .Error1 a => .Error1 a.clone

/-- `Clone for StorageCell` (`protocol/mod.rs`, lines 339–343). -/
def StorageCell.clone (c : StorageCell) : StorageCell :=
  { key := c.key, value := c.value }

/-- `Clone for MTPStorage` (`protocol/mod.rs`, lines 332–336): clones every
cell of `items`. -/
def MTPStorage.clone (s : MTPStorage) : MTPStorage :=
  { items := s.items.map StorageCell.clone }

/-- `Clone for MTPManagerAction` (`protocol/mod.rs`, lines 367–377). -/
def MTPManagerAction.clone : MTPManagerAction → MTPManagerAction
  | .Rename => .Rename
  | .Authorize => .Authorize
  | .Reject => .Reject
  | .Dispose => .Dispose
  | .AccessorModify => .AccessorModify

/-- `Clone for MTPHeaderUnit` (`protocol/mod.rs`, lines 354–364); clones of
the leaf fields (`String`, enums, `SystemTime`, `SocketAddr`) are the
values themselves. -/
def MTPHeaderUnit.clone : MTPHeaderUnit → MTPHeaderUnit
  | .Authentication key value => .Authentication key value
  | .Administration action => .Administration action.clone
  | .Source source => .Source source
  | .Message id timestamp priority category content_type =>
      .Message id timestamp priority category content_type
  | .MessagePublish queue t => .MessagePublish queue t

/-- `Clone for MTPHeaders` (`protocol/mod.rs`, lines 347–351). -/
def MTPHeaders.clone (h : MTPHeaders) : MTPHeaders :=
  { headers := h.headers.map MTPHeaderUnit.clone,
    «local» := h.«local».clone,
    timestamp := h.timestamp }

/-- `MTPResponse::get_status_code` (`protocol/mod.rs`, lines 99–101). -/
def MTPResponse.get_status_code (r : MTPResponse) : MTPStatusCode :=
  r.status_code.clone

/-- `MTPResponse::get_headers` (`protocol/mod.rs`, lines 109–111): always
`Some` of a clone of the stored headers. -/
def MTPResponse.get_headers (r : MTPResponse) : Option MTPHeaders :=
  some r.headers.clone

/-- `MTPResponse::get_storage` (`protocol/mod.rs`, lines 119–121): always
`Some` of a clone of the stored storage. -/
def MTPResponse.get_storage (r : MTPResponse) : Option MTPStorage :=
  some r.storage.clone

/-- Cloning a status code returns the same value. -/
theorem statusCode_clone_eq (s : MTPStatusCode) : s.clone = s := by
  cases s <;> rfl

/-- Cloning a storage returns the same value. -/
theorem storage_clone_eq (s : MTPStorage) : s.clone = s := by
  cases s with
  | mk items =>
    simp only [MTPStorage.clone]
    congr 1
    induction items with
    | nil => rfl
    | cons c t ih => simp [StorageCell.clone, ih]

/-- Cloning a manager action returns the same value. -/
theorem managerAction_clone_eq (a : MTPManagerAction) : a.clone = a := by
  cases a <;> rfl

/-- Cloning a header unit returns the same value. -/
theorem headerUnit_clone_eq (u : MTPHeaderUnit) : u.clone = u := by
  cases u <;> simp [MTPHeaderUnit.clone, managerAction_clone_eq]

/-- Cloning headers returns the same value. -/
theorem headers_clone_eq (h : MTPHeaders) : h.clone = h := by
  cases h with
  | mk hs l ts =>
    simp only [MTPHeaders.clone, storage_clone_eq]
    congr 1
    induction hs with
    | nil => rfl
    | cons u t ih => simp [headerUnit_clone_eq, ih]

/-- C4 counterexample: the claim says the `Error1` payload of a status is a
`ProtocolError` carrying a numeric code, but on the code the payload type
of `MTPStatusCode::Error1` is the unit type `std::fmt::Error`: at the
concrete response constructed with status `Error1 ⟨⟩`, the status payload
is the unit `FmtError`, and `FmtError` is not the type `ProtocolError`. -/
theorem C4_counterexample :
    (MTPResponse.construct (.Error1 ⟨⟩) ⟨[], ⟨[]⟩, 0⟩ ⟨[]⟩).get_status_code
      = .Error1 FmtError.mk ∧ FmtError ≠ ProtocolError := by
  constructor
  · rfl
  · intro h
    have hsub : Subsingleton FmtError := inferInstance
    rw [h] at hsub
    have h2 := hsub.allEq (.BadRequest100 ⟨""⟩) (.Unauthorized101 ⟨""⟩)
    exact absurd h2 (by simp)

/-- C4 (amended): for every `MTPResponse`, `get_status_code` returns either
`Success0` or `Error1` applied to the unique value of the unit
`std::fmt::Error` type; no other status shape is constructible. -/
theorem C4_amended_status_shape (r : MTPResponse) :
    r.get_status_code = .Success0 ∨ r.get_status_code = .Error1 FmtError.mk := by
  cases r with
  | mk s h st =>
    cases s with
    | Success0 => exact Or.inl rfl
    | Error1 e => cases e; exact Or.inr rfl

/-- C8: an `MTPResponse` echoes its constructed fields exactly: the three
accessors return the status, `Some` of the headers and `Some` of the
storage passed to `construct`, and `get_headers`/`get_storage` never
return `None` for any response. -/
theorem C8_response_accessors :
    (∀ (s : MTPStatusCode) (h : MTPHeaders) (st : MTPStorage),
      (MTPResponse.construct s h st).get_status_code = s ∧
      (MTPResponse.construct s h st).get_headers = some h ∧
      (MTPResponse.construct s h st).get_storage = some st) ∧
    (∀ r : MTPResponse, r.get_headers ≠ none ∧ r.get_storage ≠ none) := by
  constructor
  · intro s h st
    refine ⟨?_, ?_, ?_⟩
    · simp [MTPResponse.construct, MTPResponse.get_status_code, statusCode_clone_eq]
    · simp [MTPResponse.construct, MTPResponse.get_headers, headers_clone_eq]
    · simp [MTPResponse.construct, MTPResponse.get_storage, storage_clone_eq]
  · intro r
    exact ⟨by simp [MTPResponse.get_headers], by simp [MTPResponse.get_storage]⟩

/-! ## Socket data helpers (`src/net/src/socket/data.rs`) -/

/-- `Endian` (`socket/data.rs`): byte order for 16-bit units. -/
inductive Endian
  | Big
  | Little
deriving DecidableEq

/-- `u16::from_be_bytes([b0, b1])` on bytes modelled as `Nat` (each reduced
`% 256` to the `u8` range). -/
def u16_from_be_bytes (b0 b1 : Nat) : Nat := b0 % 256 * 256 + b1 % 256

/-- `u16::from_le_bytes([b0, b1])` on bytes modelled as `Nat` (each reduced
`% 256` to the `u8` range). -/
def u16_from_le_bytes (b0 b1 : Nat) : Nat := b1 % 256 * 256 + b0 % 256

/-- The 16-bit unit formed from two bytes for the given endianness, as
selected by the `match endian` inside the loop of `to_utf16_encoded`. -/
def u16_from_bytes (endian : Endian) (b0 b1 : Nat) : Nat :=
  match endian with
  | .Big => u16_from_be_bytes b0 b1
  | .Little => u16_from_le_bytes b0 b1

/-- `Data` (`socket/data.rs`): payload read from a TCP stream. -/
inductive Data
  | Utf8 (s : String)
  | Utf16 (s : String)
  | Bytes (b : List Nat)
deriving DecidableEq

/-- `Data::to_utf16_encoded` (`socket/data.rs`, lines 154–180): walks the
byte buffer two bytes at a time (`step_by(2)` with the `i + 1 < len`
guard) and combines each complete pair into a 16-bit unit for the given
endianness; a trailing odd byte is never pushed. -/
def Data.to_utf16_encoded : List Nat → Endian → List Nat
  | b0 :: b1 :: rest, endian =>
      u16_from_bytes endian b0 b1 :: Data.to_utf16_encoded rest endian
  | _, _ => []

/-- C9: `to_utf16_encoded` returns exactly `⌊len(buf)/2⌋` 16-bit units,
the `i`-th formed from bytes `buf[2i]` and `buf[2i+1]` in the requested
endianness; an odd trailing byte is silently discarded (reflected by the
floored length). -/
theorem C9_to_utf16_encoded_pairs (buf : List Nat) (endian : Endian) :
    (Data.to_utf16_encoded buf endian).length = buf.length / 2 ∧
    ∀ i b0 b1, buf[2 * i]? = some b0 → buf[2 * i + 1]? = some b1 →
      (Data.to_utf16_encoded buf endian)[i]? = some (u16_from_bytes endian b0 b1) := by
  induction buf, endian using Data.to_utf16_encoded.induct with
  | case1 b0 b1 rest endian ih =>
    refine ⟨?_, ?_⟩
    · simp only [Data.to_utf16_encoded, List.length_cons]
      omega
    · intro i c0 c1 h0 h1
      cases i with
      | zero =>
        simp only [Nat.mul_zero, List.getElem?_cons_zero, Option.some.injEq] at h0
        simp only [Nat.mul_zero, Nat.zero_add, List.getElem?_cons_succ,
          List.getElem?_cons_zero, Option.some.injEq] at h1
        subst h0; subst h1
        simp [Data.to_utf16_encoded]
      | succ j =>
        have h0' : rest[2 * j]? = some c0 := by
          rw [show 2 * (j + 1) = 2 * j + 1 + 1 from by omega] at h0
          simpa only [List.getElem?_cons_succ] using h0
        have h1' : rest[2 * j + 1]? = some c1 := by
          rw [show 2 * (j + 1) + 1 = 2 * j + 1 + 1 + 1 from by omega] at h1
          simpa only [List.getElem?_cons_succ] using h1
        simpa [Data.to_utf16_encoded] using ih.2 j c0 c1 h0' h1'
  | case2 buf endian h =>
    refine ⟨?_, ?_⟩
    · match buf with
      | [] => simp [Data.to_utf16_encoded]
      | [b] => simp [Data.to_utf16_encoded]
      | b0 :: b1 :: rest => exact absurd rfl (h b0 b1 rest)
    · intro i c0 c1 h0 h1
      match buf with
      | [] => simp at h0
      | [b] =>
        simp only [List.getElem?_cons_succ] at h1
        simp at h1
      | b0 :: b1 :: rest => exact absurd rfl (h b0 b1 rest)

/-- Witness for C9 at the concrete buffer `[1, 2, 3]` big-endian: one unit
is produced, formed from bytes `1` and `2`; the odd byte `3` is dropped. -/
theorem C9_witness :
    (Data.to_utf16_encoded [1, 2, 3] .Big).length = [1, 2, 3].length / 2 ∧
    (Data.to_utf16_encoded [1, 2, 3] .Big)[0]? = some (u16_from_bytes .Big 1 2) :=
  ⟨(C9_to_utf16_encoded_pairs [1, 2, 3] .Big).1,
    (C9_to_utf16_encoded_pairs [1, 2, 3] .Big).2 0 1 2 (by decide) (by decide)⟩

/-! ## Client socket errors and timeout send
(`src/net/src/socket/client/{error,mod}.rs`) -/

/-- Models `std::io::Error`: an opaque I/O error value. -/
structure IoErr where
  msg : String
deriving DecidableEq

/-- `ClientSocketError` (`socket/client/error.rs`): errors of the client
socket. -/
inductive ClientSocketError
  | IoError (source : IoErr)
  | TimeoutError (message : String)
  | ProtocolParseError (source : ProtocolError)
deriving DecidableEq

/-- Models the observable outcome of
`tokio::time::timeout(timeout_duration, stream.write(..))`: either the
write future completed within the duration, carrying its
`io::Result<usize>`, or the duration elapsed first. -/
inductive TimeoutOutcome
  | completed (r : Except IoErr Nat)
  | elapsed

/-- `ClientSocket::send_with_timeout` (`socket/client/mod.rs`, lines
170–178), with the timing behaviour of the wrapped write passed as the
explicit `outcome`: `Ok(Ok(_))` maps to `Ok(())`, `Ok(Err(e))` to
`IoError`, and `Err(_)` (elapsed) to `TimeoutError("Request Timeout")`. -/
def ClientSocket.send_with_timeout (data : String) (timeout_duration : Nat)
    (outcome : TimeoutOutcome) : Except ClientSocketError Unit :=
  match data, timeout_duration, outcome with
  | _, _, .completed (.ok _) => .ok ()
  | _, _, .completed (.error e) => .error (.IoError e)
  | _, _, .elapsed => .error (.TimeoutError "Request Timeout")

/-- C7: `send_with_timeout` raises exactly by its declared cases: it
returns the timeout error exactly when the write did not complete within
the duration, the I/O error exactly when the write completed with that
error, and `Ok(())` exactly when the write completed successfully. -/
theorem C7_send_with_timeout_cases (data : String) (timeout_duration : Nat)
    (outcome : TimeoutOutcome) :
    (ClientSocket.send_with_timeout data timeout_duration outcome =
        .error (.TimeoutError "Request Timeout") ↔ outcome = .elapsed) ∧
    (∀ e, ClientSocket.send_with_timeout data timeout_duration outcome =
        .error (.IoError e) ↔ outcome = .completed (.error e)) ∧
    (ClientSocket.send_with_timeout data timeout_duration outcome = .ok () ↔
      ∃ n, outcome = .completed (.ok n)) := by
  rcases outcome with r | _
  · rcases r with e | n
    · refine ⟨by simp [ClientSocket.send_with_timeout], fun e₂ => ?_,
        by simp [ClientSocket.send_with_timeout]⟩
      simp [ClientSocket.send_with_timeout]
    · refine ⟨by simp [ClientSocket.send_with_timeout],
        fun e₂ => by simp [ClientSocket.send_with_timeout], ?_⟩
      simp only [ClientSocket.send_with_timeout, true_iff]
      exact ⟨n, rfl⟩
  · refine ⟨by simp [ClientSocket.send_with_timeout],
      fun e₂ => by simp [ClientSocket.send_with_timeout],
      by simp [ClientSocket.send_with_timeout]⟩

/-- Witness for C7 at concrete inputs: an elapsed timeout yields exactly
the `TimeoutError` with message `"Request Timeout"`. -/
theorem C7_witness :
    ClientSocket.send_with_timeout "payload" 5 .elapsed =
      .error (.TimeoutError "Request Timeout") :=
  (C7_send_with_timeout_cases "payload" 5 .elapsed).1.mpr rfl

/-! ## Server socket read path
(`src/net/src/socket/server/{mod,data}.rs`) -/

/-- `Type` (`socket/data.rs`): requested interpretation of stream data.
Named `DataType` because `Type` is reserved in Lean. -/
inductive DataType
  | Utf8
  | Utf16
  | Bytes
deriving DecidableEq

/-- `SocketData` (`socket/server/data.rs`): the address of an incoming
stream and the data read from it. -/
structure SocketData where
  address : SocketAddr
  data : Data
deriving DecidableEq

/-- `SocketData::new` (`socket/server/data.rs`). -/
def SocketData.new (address : SocketAddr) (data : Data) : SocketData :=
  { address := address, data := data }

/-- The Unicode replacement character `U+FFFD` emitted by lossy decoding. -/
def replacementChar : Char := Char.ofNat 0xFFFD

/-- Decodes the first scalar of a UTF-16 unit stream: `u` is the current
unit and `rest` the units after it. Returns the decoded character and how
many extra units (beyond `u`) were consumed, or `none` when `u` starts no
valid sequence. -/
def utf16DecodeFirst (u : Nat) (rest : List Nat) : Option (Char × Nat) :=
  if u < 0xD800 then some (Char.ofNat u, 0)
  else if 0xE000 ≤ u then some (Char.ofNat u, 0)
  else if u < 0xDC00 then
    match rest with
    | v :: _ =>
      if 0xDC00 ≤ v ∧ v < 0xE000 then
        some (Char.ofNat (0x10000 + (u - 0xD800) * 0x400 + (v - 0xDC00)), 1)
      else none
    | [] => none
  else none

/-- Models Rust's `String::from_utf16_lossy` on a list of 16-bit units:
basic-plane units become the corresponding scalar, a high surrogate
followed by a low surrogate combines into a supplementary scalar, and any
unpaired surrogate becomes `U+FFFD`. -/
def fromUtf16Lossy : List Nat → List Char
  | [] => []
  | u :: rest =>
    match utf16DecodeFirst u rest with
    | some (c, consumed) => c :: fromUtf16Lossy (rest.drop consumed)
    | none => replacementChar :: fromUtf16Lossy rest
termination_by l => l.length
decreasing_by
  all_goals simp only [List.length_cons, List.length_drop]
  all_goals omega

/-- True when a byte is a UTF-8 continuation byte (`0x80..0xBF`). -/
def isContinuationByte (b : Nat) : Bool := 0x80 ≤ b && b < 0xC0

/-- Decodes the first scalar of a UTF-8 byte stream: `b` is the current
byte and `rest` the bytes after it. Returns the decoded character and how
many extra bytes (beyond `b`) were consumed, or `none` when `b` starts no
valid sequence. -/
def utf8DecodeFirst (b : Nat) (rest : List Nat) : Option (Char × Nat) :=
  if b < 0x80 then some (Char.ofNat b, 0)
  else if b < 0xC2 then none
  else if b < 0xE0 then
    match rest with
    | c1 :: _ =>
      if isContinuationByte c1 then
        some (Char.ofNat ((b - 0xC0) * 0x40 + (c1 - 0x80)), 1)
      else none
    | [] => none
  else if b < 0xF0 then
    match rest with
    | c1 :: c2 :: _ =>
      if isContinuationByte c1 && isContinuationByte c2 then
        let n := (b - 0xE0) * 0x1000 + (c1 - 0x80) * 0x40 + (c2 - 0x80)
        if 0x800 ≤ n && (n < 0xD800 || 0xE000 ≤ n) then some (Char.ofNat n, 2)
        else none
      else none
    | _ => none
  else if b < 0xF5 then
    match rest with
    | c1 :: c2 :: c3 :: _ =>
      if isContinuationByte c1 && isContinuationByte c2 && isContinuationByte c3 then
        let n := (b - 0xF0) * 0x40000 + (c1 - 0x80) * 0x1000 +
          (c2 - 0x80) * 0x40 + (c3 - 0x80)
        if 0x10000 ≤ n && n < 0x110000 then some (Char.ofNat n, 3)
        else none
      else none
    | _ => none
  else none

/-- Models Rust's `String::from_utf8_lossy` on a byte list: decodes 1- to
4-byte UTF-8 sequences and replaces invalid input with `U+FFFD` (the
replacement granularity of partially valid sequences is approximated:
one replacement character per rejected leading byte). -/
def fromUtf8Lossy : List Nat → List Char
  | [] => []
  | b :: rest =>
    match utf8DecodeFirst b rest with
    | some (c, consumed) => c :: fromUtf8Lossy (rest.drop consumed)
    | none => replacementChar :: fromUtf8Lossy rest
termination_by l => l.length
decreasing_by
  all_goals simp only [List.length_cons, List.length_drop]
  all_goals omega

/-- `Data::to_utf16_string` (`socket/data.rs`, lines 190–194): encodes the
byte buffer into 16-bit units and decodes them lossily into a string. -/
def Data.to_utf16_string (buf : List Nat) (endian : Endian) : String :=
  String.mk (fromUtf16Lossy (Data.to_utf16_encoded buf endian))

/-- Models `tokio::io::AsyncReadExt::read(&mut buf)` on a fixed-size
buffer: at most `buf.length` bytes are taken from the stream and written
at the front of the buffer; the rest of the buffer keeps its contents.
Returns the buffer after the read. -/
def streamRead (buf : List Nat) (incoming : List Nat) : List Nat :=
  incoming.take buf.length ++ buf.drop (min buf.length incoming.length)

/-- `ServerSocket::read_incoming` (`socket/server/mod.rs`, lines 219–241),
with the accepted peer's address and the bytes the peer sent passed
explicitly: initializes `buf` as an empty vector, reads the stream into
it, and wraps the result according to `data_type`. -/
def ServerSocket.read_incoming (data_type : DataType) (addr : SocketAddr)
    (incoming : List Nat) : SocketData :=
  let buf : List Nat := []
  let buf := streamRead buf incoming
  match data_type with
  | .Bytes => SocketData.new addr (.Bytes buf)
  | .Utf16 => SocketData.new addr (.Utf16 (Data.to_utf16_string buf .Big))
  | .Utf8 => SocketData.new addr (.Utf8 (String.mk (fromUtf8Lossy buf)))

/-- `ServerSocket::read` (`socket/server/mod.rs`, lines 303–305): delegates
to `read_incoming` with `Type::Utf8`. -/
def ServerSocket.read (addr : SocketAddr) (incoming : List Nat) : SocketData :=
  ServerSocket.read_incoming .Utf8 addr incoming

/-- The empty character list yields the empty string. -/
theorem string_mk_nil : String.mk [] = "" := rfl

/-- Lossy UTF-16 decoding of no units yields no characters. -/
theorem fromUtf16Lossy_nil : fromUtf16Lossy [] = [] := by
  rw [fromUtf16Lossy]

/-- Lossy UTF-8 decoding of no bytes yields no characters. -/
theorem fromUtf8Lossy_nil : fromUtf8Lossy [] = [] := by
  rw [fromUtf8Lossy]

/-- Reading the stream into an empty buffer yields an empty buffer, no
matter how many bytes are available. -/
theorem streamRead_nil (incoming : List Nat) : streamRead [] incoming = [] := by
  simp [streamRead]

/-- C10: `read_incoming` reads into a zero-length buffer, so the
`SocketData` it returns always carries empty data — an empty byte vector
for `Type::Bytes`, an empty string for `Type::Utf8` and `Type::Utf16` —
regardless of how many bytes the peer sent; `read` likewise always
returns an empty UTF-8 string. -/
theorem C10_read_incoming_empty (data_type : DataType) (addr : SocketAddr)
    (incoming : List Nat) :
    ServerSocket.read_incoming data_type addr incoming =
      SocketData.new addr
        (match data_type with
          | .Bytes => .Bytes []
          | .Utf16 => .Utf16 ""
          | .Utf8 => .Utf8 "") ∧
    ServerSocket.read addr incoming = SocketData.new addr (.Utf8 "") := by
  constructor
  · cases data_type <;>
      simp [ServerSocket.read_incoming, streamRead_nil, Data.to_utf16_string,
        Data.to_utf16_encoded, fromUtf16Lossy_nil, fromUtf8Lossy_nil, string_mk_nil]
  · simp [ServerSocket.read, ServerSocket.read_incoming, streamRead_nil,
      fromUtf8Lossy_nil, string_mk_nil]

/-! ## Queue backlog and dequeue

The queue engine is described by the specification but absent from the
crate sources, so it is modelled from the specification's words. -/

/-- Modelled from the spec: the priority order `Critical > High > Medium >
Low` of `MessagePriority`, as a numeric rank. -/
def MessagePriority.rank : MessagePriority → Nat
  | .Low => 0
  | .Medium => 1
  | .High => 2
  | .Critical => 3

/-- Modelled from the spec: a queue's backlog is the arrival-ordered
sequence of not-yet-pulled messages; `enqueue` appends at the back. -/
def enqueue (backlog : List MTPMessage) (m : MTPMessage) : List MTPMessage :=
  backlog ++ [m]

/-- Modelled from the spec: `dequeue(queue) -> optional message`, returning
the highest-priority message first with ties broken by arrival order (a
stable priority queue). The earliest message is kept unless a strictly
higher-priority message occurs later in the backlog. -/
def dequeue : List MTPMessage → Option MTPMessage
  | [] => none
  | m :: rest =>
    match dequeue rest with
    | none => some m
    | some b => if m.priority.rank < b.priority.rank then some b else some m

/-- `dequeue` returns `none` exactly on the empty backlog. -/
theorem dequeue_eq_none_iff (l : List MTPMessage) : dequeue l = none ↔ l = [] := by
  cases l with
  | nil => simp [dequeue]
  | cons m rest =>
    simp only [dequeue]
    cases dequeue rest with
    | none => simp
    | some b =>
      by_cases h : m.priority.rank < b.priority.rank <;> simp [h]

/-- The message returned by `dequeue` has maximal rank in the backlog. -/
theorem dequeue_max (l : List MTPMessage) (b : MTPMessage) (h : dequeue l = some b) :
    ∀ x ∈ l, x.priority.rank ≤ b.priority.rank := by
  induction l generalizing b with
  | nil => simp [dequeue] at h
  | cons m rest ih =>
    simp only [dequeue] at h
    cases hd : dequeue rest with
    | none =>
      simp only [hd] at h
      have hrest : rest = [] := (dequeue_eq_none_iff rest).mp hd
      subst hrest
      simp only [Option.some.injEq] at h
      subst h
      simp
    | some c =>
      simp only [hd] at h
      by_cases hcmp : m.priority.rank < c.priority.rank
      · rw [if_pos hcmp] at h
        simp only [Option.some.injEq] at h
        subst h
        intro x hx
        rcases List.mem_cons.mp hx with hx | hx
        · subst hx; omega
        · exact ih c hd x hx
      · rw [if_neg hcmp] at h
        simp only [Option.some.injEq] at h
        subst h
        intro x hx
        rcases List.mem_cons.mp hx with hx | hx
        · subst hx; omega
        · exact le_trans (ih c hd x hx) (by omega)

/-- `dequeue` splits the backlog around the returned message: everything
earlier has strictly lower rank (the returned message is the earliest of
maximal rank), and everything later has rank at most the returned one. -/
theorem dequeue_split (l : List MTPMessage) (b : MTPMessage) (h : dequeue l = some b) :
    ∃ l₁ l₂, l = l₁ ++ b :: l₂ ∧
      (∀ x ∈ l₁, x.priority.rank < b.priority.rank) ∧
      (∀ x ∈ l₂, x.priority.rank ≤ b.priority.rank) := by
  induction l generalizing b with
  | nil => simp [dequeue] at h
  | cons m rest ih =>
    simp only [dequeue] at h
    cases hd : dequeue rest with
    | none =>
      simp only [hd] at h
      have hrest : rest = [] := (dequeue_eq_none_iff rest).mp hd
      subst hrest
      simp only [Option.some.injEq] at h
      subst h
      exact ⟨[], [], rfl, by simp, by simp⟩
    | some c =>
      simp only [hd] at h
      by_cases hcmp : m.priority.rank < c.priority.rank
      · rw [if_pos hcmp] at h
        simp only [Option.some.injEq] at h
        subst h
        obtain ⟨l₁, l₂, heq, hlt, hle⟩ := ih c hd
        refine ⟨m :: l₁, l₂, by simp [heq], ?_, hle⟩
        intro x hx
        rcases List.mem_cons.mp hx with hx | hx
        · subst hx; exact hcmp
        · exact hlt x hx
      · rw [if_neg hcmp] at h
        simp only [Option.some.injEq] at h
        subst h
        refine ⟨[], rest, rfl, by simp, ?_⟩
        intro x hx
        exact le_trans (dequeue_max rest c hd x hx) (by omega)

/-- C6: `dequeue` returns the highest-priority message first with ties
broken by arrival order: the backlog splits as `l₁ ++ returned :: l₂`
where every earlier message has strictly lower rank and every later
message has rank at most the returned one; in particular `dequeue` never
returns a `Low` message while a `Critical` message is in the backlog. -/
theorem C6_dequeue_priority (l : List MTPMessage) (b : MTPMessage)
    (h : dequeue l = some b) :
    (∃ l₁ l₂, l = l₁ ++ b :: l₂ ∧
      (∀ x ∈ l₁, x.priority.rank < b.priority.rank) ∧
      (∀ x ∈ l₂, x.priority.rank ≤ b.priority.rank)) ∧
    (b.priority = .Low → ∀ x ∈ l, x.priority ≠ .Critical) := by
  refine ⟨dequeue_split l b h, ?_⟩
  intro hlow x hx hcrit
  have hmax := dequeue_max l b h x hx
  rw [hlow, hcrit] at hmax
  simp [MessagePriority.rank] at hmax

/-- Witness for C6 at a concrete backlog: with a `Low` message arriving
before a `Critical` one, `dequeue` returns the `Critical` message, and the
split has the `Low` message strictly below it. -/
theorem C6_witness :
    (∃ l₁ l₂,
      [MTPMessage.mk .JSON .Low .EVENT .ALL "a", MTPMessage.mk .JSON .Critical .EVENT .ALL "b"] =
        l₁ ++ MTPMessage.mk .JSON .Critical .EVENT .ALL "b" :: l₂ ∧
      (∀ x ∈ l₁, x.priority.rank < (MTPMessage.mk .JSON .Critical .EVENT .ALL "b").priority.rank) ∧
      (∀ x ∈ l₂, x.priority.rank ≤ (MTPMessage.mk .JSON .Critical .EVENT .ALL "b").priority.rank)) ∧
    ((MTPMessage.mk .JSON .Critical .EVENT .ALL "b").priority = .Low →
      ∀ x ∈ [MTPMessage.mk .JSON .Low .EVENT .ALL "a",
        MTPMessage.mk .JSON .Critical .EVENT .ALL "b"], x.priority ≠ .Critical) :=
  C6_dequeue_priority
    [MTPMessage.mk .JSON .Low .EVENT .ALL "a", MTPMessage.mk .JSON .Critical .EVENT .ALL "b"]
    (MTPMessage.mk .JSON .Critical .EVENT .ALL "b") (by rfl)

/-! ## Frame codec primitives

The `ProtocolParser` trait used by `send_frame`/`recv_frame`
(`socket/client/mod.rs` imports it from a module absent from the crate
sources), so the codec is modelled from the specification: a
length-prefixed, self-delimiting frame containing a serialized
`MTPPayload`. Bytes are `Nat` values below 256. -/

/-- Modelled from the spec: variable-length byte encoding of a natural
number (7 data bits per byte, high bit marks continuation), used for
length prefixes and numeric fields of the frame. -/
def encNat (n : Nat) : List Nat :=
  if n < 128 then [n] else (n % 128 + 128) :: encNat (n / 128)
decreasing_by
  exact Nat.div_lt_self (by omega) (by omega)

/-- Modelled from the spec: decoder of `encNat`, returning the value and
the remaining bytes. -/
def decNat : List Nat → Option (Nat × List Nat)
  | [] => none
  | b :: r =>
    if b < 128 then some (b, r)
    else
      match decNat r with
      | some (m, r2) => some (b - 128 + 128 * m, r2)
      | none => none

/-- Decoding after encoding a natural number recovers it exactly and
leaves the remaining bytes untouched. -/
@[simp] theorem decNat_encNat (n : Nat) (r : List Nat) :
    decNat (encNat n ++ r) = some (n, r) := by
  induction n using Nat.strong_induction_on with
  | _ n ih =>
    by_cases h : n < 128
    · rw [encNat, if_pos h]
      simp [decNat, h]
    · rw [encNat, if_neg h]
      have h1 : ¬(n % 128 + 128 < 128) := by omega
      simp only [List.cons_append, decNat, if_neg h1, List.append_eq,
        ih (n / 128) (Nat.div_lt_self (by omega) (by omega))]
      have h2 : n % 128 + 128 - 128 + 128 * (n / 128) = n := by omega
      rw [h2]

/-- Modelled from the spec: a character is encoded as its Unicode scalar
value. -/
def encChar (c : Char) : List Nat := encNat c.toNat

/-- Modelled from the spec: decoder of `encChar`. -/
def decChar (bs : List Nat) : Option (Char × List Nat) :=
  match decNat bs with
  | some (n, r) => some (Char.ofNat n, r)
  | none => none

/-- Rebuilding a character from its scalar value recovers it. -/
theorem char_ofNat_toNat (c : Char) : Char.ofNat c.toNat = c := by
  rcases c with ⟨v, h⟩
  have hv : v.toNat.isValidChar := h
  simp only [Char.ofNat, Char.toNat, hv, dif_pos]
  simp only [Char.ofNatAux]
  congr 1

/-- Decoding after encoding a character recovers it exactly. -/
@[simp] theorem decChar_encChar (c : Char) (r : List Nat) :
    decChar (encChar c ++ r) = some (c, r) := by
  simp [decChar, encChar, char_ofNat_toNat]

/-- Modelled from the spec: the concatenated encodings of the elements of
a list. -/
def encListBody (f : α → List Nat) : List α → List Nat
  | [] => []
  | a :: t => f a ++ encListBody f t

/-- Modelled from the spec: decodes exactly `n` elements with the element
decoder `d`. -/
def decListBody (d : List Nat → Option (α × List Nat)) :
    Nat → List Nat → Option (List α × List Nat)
  | 0, bs => some ([], bs)
  | n + 1, bs =>
    match d bs with
    | some (a, r) =>
      match decListBody d n r with
      | some (l, r2) => some (a :: l, r2)
      | none => none
    | none => none

/-- Decoding `l.length` elements after encoding the list `l` recovers it
exactly, provided the element codec round-trips. -/
theorem decListBody_encListBody (f : α → List Nat)
    (d : List Nat → Option (α × List Nat))
    (hf : ∀ a r, d (f a ++ r) = some (a, r)) (l : List α) (r : List Nat) :
    decListBody d l.length (encListBody f l ++ r) = some (l, r) := by
  induction l with
  | nil => rfl
  | cons a t ih =>
    simp [encListBody, decListBody, List.append_assoc, hf, ih]

/-- Modelled from the spec: a list is encoded as its length followed by
the element encodings. -/
def encList (f : α → List Nat) (l : List α) : List Nat :=
  encNat l.length ++ encListBody f l

/-- Modelled from the spec: decoder of `encList`. -/
def decList (d : List Nat → Option (α × List Nat)) (bs : List Nat) :
    Option (List α × List Nat) :=
  match decNat bs with
  | some (n, r) => decListBody d n r
  | none => none

/-- Decoding after encoding a list recovers it exactly, provided the
element codec round-trips. -/
theorem decList_encList (f : α → List Nat)
    (d : List Nat → Option (α × List Nat))
    (hf : ∀ a r, d (f a ++ r) = some (a, r)) (l : List α) (r : List Nat) :
    decList d (encList f l ++ r) = some (l, r) := by
  simp [decList, encList, List.append_assoc, decListBody_encListBody f d hf]

/-- Modelled from the spec: a string is encoded as its character list. -/
def encString (s : String) : List Nat := encList encChar s.data

/-- Modelled from the spec: decoder of `encString`. -/
def decString (bs : List Nat) : Option (String × List Nat) :=
  match decList decChar bs with
  | some (cs, r) => some (String.mk cs, r)
  | none => none

/-- Decoding after encoding a string recovers it exactly. -/
@[simp] theorem decString_encString (s : String) (r : List Nat) :
    decString (encString s ++ r) = some (s, r) := by
  simp only [decString, encString,
    decList_encList encChar decChar decChar_encChar s.data r]

/-- Modelled from the spec: an optional value is encoded with a presence
tag followed by the value's encoding when present. -/
def encOption (f : α → List Nat) : Option α → List Nat
  | none => [0]
  | some a => 1 :: f a

/-- Modelled from the spec: decoder of `encOption`. -/
def decOption (d : List Nat → Option (α × List Nat)) :
    List Nat → Option (Option α × List Nat)
  | 0 :: r => some (none, r)
  | 1 :: r =>
    match d r with
    | some (a, r2) => some (some a, r2)
    | none => none
  | _ => none

/-- Decoding after encoding an optional value recovers it exactly,
provided the element codec round-trips. -/
theorem decOption_encOption (f : α → List Nat)
    (d : List Nat → Option (α × List Nat))
    (hf : ∀ a r, d (f a ++ r) = some (a, r)) (o : Option α) (r : List Nat) :
    decOption d (encOption f o ++ r) = some (o, r) := by
  cases o with
  | none => rfl
  | some a => simp [encOption, decOption, hf]

/-! ## The MTP payload and its frame codec (modelled from the spec) -/

/-- Modelled from the spec: `QueueAccess`, the queue-level access policy
(`Public | Private | Protected`). -/
inductive QueueAccess
  | Public
  | Private
  | Protected
deriving DecidableEq

/-- Modelled from the spec: `ManagerAction` with its arguments
(`Rename(new_name) | Authorize(client_id) | Reject | Dispose(client_id) |
AccessorModify(new_access)`). -/
inductive ManagerAction
  | Rename (new_name : String)
  | Authorize (client_id : String)
  | Reject
  | Dispose (client_id : String)
  | AccessorModify (new_access : QueueAccess)
deriving DecidableEq

/-- Modelled from the spec: `HeaderUnit`, the tagged variants of a payload
header (`Authentication`, `Administration`, `Source`, `MessageMeta`,
`PublishTarget`, `QueueCreation`). -/
inductive HeaderUnit
  | Authentication (method : MTPAuth) (credential : String)
  | Administration (action : ManagerAction)
  | Source (address : SocketAddr)
  | MessageMeta (id : String) (timestamp : SystemTime) (priority : MessagePriority)
      (category : MessageCategory) (content_type : ContentType)
  | PublishTarget (queue : String) (target : MessagePublish)
  | QueueCreation
deriving DecidableEq

/-- Modelled from the spec: `MTPPayload`, one protocol message unit —
an ordered sequence of header units (may be empty), an optional message
body, the request type, and an optional timestamp. -/
structure MTPPayload where
  headers : List HeaderUnit
  message : Option MTPMessage
  request : MTPRequestType
  timestamp : Option SystemTime
deriving DecidableEq

/-- Modelled from the spec: serialization of `AuthSchemes`. -/
def encAuthSchemes : AuthSchemes → List Nat
  | .Bearer => [0]
  | .Basic => [1]

/-- Modelled from the spec: decoder of `encAuthSchemes`. -/
def decAuthSchemes : List Nat → Option (AuthSchemes × List Nat)
  | 0 :: r => some (.Bearer, r)
  | 1 :: r => some (.Basic, r)
  | _ => none

/-- Decoding after encoding an auth scheme recovers it exactly. -/
@[simp] theorem decAuthSchemes_enc (a : AuthSchemes) (r : List Nat) :
    decAuthSchemes (encAuthSchemes a ++ r) = some (a, r) := by
  cases a <;> rfl

/-- Modelled from the spec: serialization of `MTPAuth`. -/
def encMTPAuth : MTPAuth → List Nat
  | .ExternalToken => [0]
  | .LocalToken => [1]
  | .Authorization scheme => 2 :: encAuthSchemes scheme
  | .Cookie => [3]

/-- Modelled from the spec: decoder of `encMTPAuth`. -/
def decMTPAuth : List Nat → Option (MTPAuth × List Nat)
  | 0 :: r => some (.ExternalToken, r)
  | 1 :: r => some (.LocalToken, r)
  | 2 :: r =>
    match decAuthSchemes r with
    | some (s, r2) => some (.Authorization s, r2)
    | none => none
  | 3 :: r => some (.Cookie, r)
  | _ => none

/-- Decoding after encoding an auth method recovers it exactly. -/
@[simp] theorem decMTPAuth_enc (a : MTPAuth) (r : List Nat) :
    decMTPAuth (encMTPAuth a ++ r) = some (a, r) := by
  cases a with
  | Authorization s => simp [encMTPAuth, decMTPAuth]
  | _ => rfl

/-- Modelled from the spec: serialization of `MTPRequestType`. -/
def encRequestType : MTPRequestType → List Nat
  | .Subscribe => [0]
  | .Unsubscribe => [1]
  | .Publish => [2]
  | .Pull => [3]
  | .Ping => [4]
  | .Manage => [5]

/-- Modelled from the spec: decoder of `encRequestType`. -/
def decRequestType : List Nat → Option (MTPRequestType × List Nat)
  | 0 :: r => some (.Subscribe, r)
  | 1 :: r => some (.Unsubscribe, r)
  | 2 :: r => some (.Publish, r)
  | 3 :: r => some (.Pull, r)
  | 4 :: r => some (.Ping, r)
  | 5 :: r => some (.Manage, r)
  | _ => none

/-- Decoding after encoding a request type recovers it exactly. -/
@[simp] theorem decRequestType_enc (a : MTPRequestType) (r : List Nat) :
    decRequestType (encRequestType a ++ r) = some (a, r) := by
  cases a <;> rfl

/-- Modelled from the spec: serialization of `MessagePriority`. -/
def encPriority : MessagePriority → List Nat
  | .Low => [0]
  | .Medium => [1]
  | .High => [2]
  | .Critical => [3]

/-- Modelled from the spec: decoder of `encPriority`. -/
def decPriority : List Nat → Option (MessagePriority × List Nat)
  | 0 :: r => some (.Low, r)
  | 1 :: r => some (.Medium, r)
  | 2 :: r => some (.High, r)
  | 3 :: r => some (.Critical, r)
  | _ => none

/-- Decoding after encoding a priority recovers it exactly. -/
@[simp] theorem decPriority_enc (a : MessagePriority) (r : List Nat) :
    decPriority (encPriority a ++ r) = some (a, r) := by
  cases a <;> rfl

/-- Modelled from the spec: serialization of `MessageCategory`. -/
def encCategory : MessageCategory → List Nat
  | .EVENT => [0]
  | .COMMAND => [1]
  | .REQUEST => [2]
  | .RESPONSE => [3]
  | .ACKNOWLEDGEMENT => [4]
  | .ERROR => [5]
  | .NOTIFICATION => [6]
  | .STATUS => [7]

/-- Modelled from the spec: decoder of `encCategory`. -/
def decCategory : List Nat → Option (MessageCategory × List Nat)
  | 0 :: r => some (.EVENT, r)
  | 1 :: r => some (.COMMAND, r)
  | 2 :: r => some (.REQUEST, r)
  | 3 :: r => some (.RESPONSE, r)
  | 4 :: r => some (.ACKNOWLEDGEMENT, r)
  | 5 :: r => some (.ERROR, r)
  | 6 :: r => some (.NOTIFICATION, r)
  | 7 :: r => some (.STATUS, r)
  | _ => none

/-- Decoding after encoding a category recovers it exactly. -/
@[simp] theorem decCategory_enc (a : MessageCategory) (r : List Nat) :
    decCategory (encCategory a ++ r) = some (a, r) := by
  cases a <;> rfl

/-- Modelled from the spec: serialization of `ContentType`. -/
def encContentType : ContentType → List Nat
  | .JSON => [0]
  | .XML => [1]

/-- Modelled from the spec: decoder of `encContentType`. -/
def decContentType : List Nat → Option (ContentType × List Nat)
  | 0 :: r => some (.JSON, r)
  | 1 :: r => some (.XML, r)
  | _ => none

/-- Decoding after encoding a content type recovers it exactly. -/
@[simp] theorem decContentType_enc (a : ContentType) (r : List Nat) :
    decContentType (encContentType a ++ r) = some (a, r) := by
  cases a <;> rfl

/-- Decoding after encoding a list of strings recovers it exactly. -/
@[simp] theorem decList_decString_enc (l : List String) (r : List Nat) :
    decList decString (encList encString l ++ r) = some (l, r) :=
  decList_encList encString decString (fun a r2 => decString_encString a r2) l r

/-- Modelled from the spec: serialization of `MessagePublish`. -/
def encMessagePublish : MessagePublish → List Nat
  | .ALL => [0]
  | .TO client => 1 :: encString client
  | .GROUP clients => 2 :: encList encString clients

/-- Modelled from the spec: decoder of `encMessagePublish`. -/
def decMessagePublish : List Nat → Option (MessagePublish × List Nat)
  | 0 :: r => some (.ALL, r)
  | 1 :: r =>
    match decString r with
    | some (c, r2) => some (.TO c, r2)
    | none => none
  | 2 :: r =>
    match decList decString r with
    | some (cs, r2) => some (.GROUP cs, r2)
    | none => none
  | _ => none

/-- Decoding after encoding an addressing mode recovers it exactly. -/
@[simp] theorem decMessagePublish_enc (a : MessagePublish) (r : List Nat) :
    decMessagePublish (encMessagePublish a ++ r) = some (a, r) := by
  cases a with
  | ALL => rfl
  | TO c => simp [encMessagePublish, decMessagePublish]
  | GROUP cs => simp [encMessagePublish, decMessagePublish]

/-- Modelled from the spec: serialization of `QueueAccess`. -/
def encQueueAccess : QueueAccess → List Nat
  | .Public => [0]
  | .Private => [1]
  | .Protected => [2]

/-- Modelled from the spec: decoder of `encQueueAccess`. -/
def decQueueAccess : List Nat → Option (QueueAccess × List Nat)
  | 0 :: r => some (.Public, r)
  | 1 :: r => some (.Private, r)
  | 2 :: r => some (.Protected, r)
  | _ => none

/-- Decoding after encoding a queue access policy recovers it exactly. -/
@[simp] theorem decQueueAccess_enc (a : QueueAccess) (r : List Nat) :
    decQueueAccess (encQueueAccess a ++ r) = some (a, r) := by
  cases a <;> rfl

/-- Modelled from the spec: serialization of `ManagerAction`. -/
def encManagerAction : ManagerAction → List Nat
  | .Rename new_name => 0 :: encString new_name
  | .Authorize client_id => 1 :: encString client_id
  | .Reject => [2]
  | .Dispose client_id => 3 :: encString client_id
  | .AccessorModify new_access => 4 :: encQueueAccess new_access

/-- Modelled from the spec: decoder of `encManagerAction`. -/
def decManagerAction : List Nat → Option (ManagerAction × List Nat)
  | 0 :: r =>
    match decString r with
    | some (s, r2) => some (.Rename s, r2)
    | none => none
  | 1 :: r =>
    match decString r with
    | some (s, r2) => some (.Authorize s, r2)
    | none => none
  | 2 :: r => some (.Reject, r)
  | 3 :: r =>
    match decString r with
    | some (s, r2) => some (.Dispose s, r2)
    | none => none
  | 4 :: r =>
    match decQueueAccess r with
    | some (q, r2) => some (.AccessorModify q, r2)
    | none => none
  | _ => none

/-- Decoding after encoding a manager action recovers it exactly. -/
@[simp] theorem decManagerAction_enc (a : ManagerAction) (r : List Nat) :
    decManagerAction (encManagerAction a ++ r) = some (a, r) := by
  cases a <;> simp [encManagerAction, decManagerAction]

/-- Modelled from the spec: serialization of a `SocketAddr` (four octets
and the port). -/
def encSocketAddr (a : SocketAddr) : List Nat :=
  encNat a.oct0 ++ encNat a.oct1 ++ encNat a.oct2 ++ encNat a.oct3 ++ encNat a.port

/-- Modelled from the spec: decoder of `encSocketAddr`. -/
def decSocketAddr (bs : List Nat) : Option (SocketAddr × List Nat) :=
  match decNat bs with
  | some (o0, r0) =>
    match decNat r0 with
    | some (o1, r1) =>
      match decNat r1 with
      | some (o2, r2) =>
        match decNat r2 with
        | some (o3, r3) =>
          match decNat r3 with
          | some (p, r4) => some ({ oct0 := o0, oct1 := o1, oct2 := o2, oct3 := o3, port := p }, r4)
          | none => none
        | none => none
      | none => none
    | none => none
  | none => none

/-- Decoding after encoding a socket address recovers it exactly. -/
@[simp] theorem decSocketAddr_enc (a : SocketAddr) (r : List Nat) :
    decSocketAddr (encSocketAddr a ++ r) = some (a, r) := by
  cases a
  simp [encSocketAddr, decSocketAddr, List.append_assoc]

/-- Modelled from the spec: serialization of an `MTPMessage` — content
type, priority, category, addressing mode and body in sequence. -/
def encMTPMessage (m : MTPMessage) : List Nat :=
  encContentType m.content_type ++ encPriority m.priority ++
    encCategory m.category ++ encMessagePublish m.publish ++ encString m.message

/-- Modelled from the spec: decoder of `encMTPMessage`. -/
def decMTPMessage (bs : List Nat) : Option (MTPMessage × List Nat) :=
  match decContentType bs with
  | some (ct, r1) =>
    match decPriority r1 with
    | some (pr, r2) =>
      match decCategory r2 with
      | some (cat, r3) =>
        match decMessagePublish r3 with
        | some (pub, r4) =>
          match decString r4 with
          | some (msg, r5) => some (MTPMessage.mk ct pr cat pub msg, r5)
          | none => none
        | none => none
      | none => none
    | none => none
  | none => none

/-- Decoding after encoding a message recovers it exactly. -/
@[simp] theorem decMTPMessage_enc (m : MTPMessage) (r : List Nat) :
    decMTPMessage (encMTPMessage m ++ r) = some (m, r) := by
  cases m
  simp [encMTPMessage, decMTPMessage, List.append_assoc]

/-- Modelled from the spec: serialization of a `HeaderUnit`, tagged by
variant. -/
def encHeaderUnit : HeaderUnit → List Nat
  | .Authentication method credential => 0 :: (encMTPAuth method ++ encString credential)
  | .Administration action => 1 :: encManagerAction action
  | .Source address => 2 :: encSocketAddr address
  | .MessageMeta id timestamp priority category content_type =>
      3 :: (encString id ++ encNat timestamp ++ encPriority priority ++
        encCategory category ++ encContentType content_type)
  | .PublishTarget queue target => 4 :: (encString queue ++ encMessagePublish target)
  | .QueueCreation => [5]

/-- Modelled from the spec: decoder of `encHeaderUnit`. -/
def decHeaderUnit : List Nat → Option (HeaderUnit × List Nat)
  | 0 :: r =>
    match decMTPAuth r with
    | some (m, r1) =>
      match decString r1 with
      | some (c, r2) => some (.Authentication m c, r2)
      | none => none
    | none => none
  | 1 :: r =>
    match decManagerAction r with
    | some (a, r1) => some (.Administration a, r1)
    | none => none
  | 2 :: r =>
    match decSocketAddr r with
    | some (a, r1) => some (.Source a, r1)
    | none => none
  | 3 :: r =>
    match decString r with
    | some (id, r1) =>
      match decNat r1 with
      | some (ts, r2) =>
        match decPriority r2 with
        | some (pr, r3) =>
          match decCategory r3 with
          | some (cat, r4) =>
            match decContentType r4 with
            | some (ct, r5) => some (.MessageMeta id ts pr cat ct, r5)
            | none => none
          | none => none
        | none => none
      | none => none
    | none => none
  | 4 :: r =>
    match decString r with
    | some (q, r1) =>
      match decMessagePublish r1 with
      | some (t, r2) => some (.PublishTarget q t, r2)
      | none => none
    | none => none
  | 5 :: r => some (.QueueCreation, r)
  | _ => none

/-- Decoding after encoding a header unit recovers it exactly. -/
@[simp] theorem decHeaderUnit_enc (u : HeaderUnit) (r : List Nat) :
    decHeaderUnit (encHeaderUnit u ++ r) = some (u, r) := by
  cases u <;> simp [encHeaderUnit, decHeaderUnit, List.append_assoc]

/-- Decoding after encoding a list of header units recovers it exactly. -/
@[simp] theorem decList_decHeaderUnit_enc (l : List HeaderUnit) (r : List Nat) :
    decList decHeaderUnit (encList encHeaderUnit l ++ r) = some (l, r) :=
  decList_encList encHeaderUnit decHeaderUnit
    (fun a r2 => decHeaderUnit_enc a r2) l r

/-- Decoding after encoding an optional message recovers it exactly. -/
@[simp] theorem decOption_decMTPMessage_enc (o : Option MTPMessage) (r : List Nat) :
    decOption decMTPMessage (encOption encMTPMessage o ++ r) = some (o, r) :=
  decOption_encOption encMTPMessage decMTPMessage
    (fun a r2 => decMTPMessage_enc a r2) o r

/-- Decoding after encoding an optional timestamp recovers it exactly. -/
@[simp] theorem decOption_decNat_enc (o : Option Nat) (r : List Nat) :
    decOption decNat (encOption encNat o ++ r) = some (o, r) :=
  decOption_encOption encNat decNat (fun a r2 => decNat_encNat a r2) o r

/-- Modelled from the spec: body serialization of an `MTPPayload` —
headers, optional message, request type and optional timestamp in
sequence. -/
def encPayload (p : MTPPayload) : List Nat :=
  encList encHeaderUnit p.headers ++ encOption encMTPMessage p.message ++
    encRequestType p.request ++ encOption encNat p.timestamp

/-- Modelled from the spec: decoder of `encPayload`. -/
def decPayload (bs : List Nat) : Option (MTPPayload × List Nat) :=
  match decList decHeaderUnit bs with
  | some (hs, r1) =>
    match decOption decMTPMessage r1 with
    | some (msg, r2) =>
      match decRequestType r2 with
      | some (rq, r3) =>
        match decOption decNat r3 with
        | some (ts, r4) => some (MTPPayload.mk hs msg rq ts, r4)
        | none => none
      | none => none
    | none => none
  | none => none

/-- Decoding after encoding a payload body recovers it exactly. -/
@[simp] theorem decPayload_enc (p : MTPPayload) (r : List Nat) :
    decPayload (encPayload p ++ r) = some (p, r) := by
  cases p
  simp [encPayload, decPayload, List.append_assoc]

/-- Modelled from the spec: the frame put on the wire for a payload — the
body length as a prefix, followed by the body. This is what the spec calls
a self-delimiting, length-prefixed frame. -/
def encFrame (p : MTPPayload) : List Nat :=
  encNat (encPayload p).length ++ encPayload p

/-- Modelled from the spec: frame decoder — reads the length prefix, takes
exactly that many bytes, decodes the body in full, and returns the payload
together with the bytes after the frame. Fails on a short or malformed
frame. -/
def decFrame (bs : List Nat) : Option (MTPPayload × List Nat) :=
  match decNat bs with
  | some (n, r) =>
    if n ≤ r.length then
      match decPayload (r.take n) with
      | some (p, []) => some (p, r.drop n)
      | _ => none
    else none
  | none => none

/-- Modelled from the spec: `ProtocolParse::to_bytes`, the codec
serialization used by `send_frame`; always succeeds, producing the
length-prefixed frame. -/
def MTPPayload.to_bytes (p : MTPPayload) : Except ProtocolError (List Nat) :=
  .ok (encFrame p)

/-- Modelled from the spec: `ProtocolParse::from_raw`, the codec
deserialization used by `recv_frame`; a malformed frame yields
`BadRequest100`. -/
def MTPPayload.from_raw (bs : List Nat) : Except ProtocolError MTPPayload :=
  match decFrame bs with
  | some (p, _) => .ok p
  | none => .error (.BadRequest100 ⟨"malformed frame"⟩)

/-- `ClientSocket::send_frame` (`socket/client/mod.rs`, lines 190–201),
restricted to its observable effect on the wire: serializes the payload
with `to_bytes` and writes exactly those bytes to the stream (returned
here as the `ok` value); a codec failure is wrapped in
`ProtocolParseError`. -/
def ClientSocket.send_frame_bytes (p : MTPPayload) :
    Except ClientSocketError (List Nat) :=
  match p.to_bytes with
  | .ok b => .ok b
  | .error e => .error (.ProtocolParseError e)

/-- A frame followed by arbitrary bytes decodes to exactly its payload and
leaves exactly those following bytes. -/
theorem decFrame_encFrame (p : MTPPayload) (junk : List Nat) :
    decFrame (encFrame p ++ junk) = some (p, junk) := by
  have hlen : (encPayload p).length ≤ ((encPayload p) ++ junk).length := by
    simp
  have htake : ((encPayload p) ++ junk).take (encPayload p).length = encPayload p :=
    List.take_left _ _
  have hdrop : ((encPayload p) ++ junk).drop (encPayload p).length = junk :=
    List.drop_left _ _
  have hbody : decPayload (encPayload p) = some (p, []) := by
    simpa using decPayload_enc p []
  simp [decFrame, encFrame, List.append_assoc, hlen, htake, hdrop, hbody]

/-- C2: the codec round-trips — for every `MTPPayload`, `to_bytes`
produces bytes from which `from_raw` recovers exactly the payload. -/
theorem C2_codec_roundtrip (p : MTPPayload) :
    ∃ bs, p.to_bytes = .ok bs ∧ MTPPayload.from_raw bs = .ok p := by
  refine ⟨encFrame p, rfl, ?_⟩
  have h := decFrame_encFrame p []
  rw [List.append_nil] at h
  simp [MTPPayload.from_raw, h]

/-- C3: every frame written by `send_frame` is self-delimiting — the bytes
written are a length prefix followed by the serialized payload body, and a
receiver recovers the frame boundary from the bytes alone: decoding the
frame with any following bytes appended returns exactly the payload and
those following bytes. -/
theorem C3_send_frame_self_delimiting (p : MTPPayload) :
    ∃ body, ClientSocket.send_frame_bytes p = .ok (encNat body.length ++ body) ∧
      ∀ junk, decFrame ((encNat body.length ++ body) ++ junk) = some (p, junk) := by
  refine ⟨encPayload p, rfl, fun junk => ?_⟩
  exact decFrame_encFrame p junk

end ExcalMQ
